import Mathlib

/-!
Verification development for the `searxngr` interactive SearXNG CLI client
(`src/searxngr/searxngr.py`).

The embedding is shallow:

* Python strings manipulated by the interactive command interpreter are
  modelled as `List Char`; the helpers `pyStrip`, `pyLower`, `pyIsDigit`,
  `pyToNat`, `startsWithL`, `containsL` and `charReplace` mirror the Python
  string operations used by the source (restricted to ASCII inputs, which
  covers every string the source compares against).
* The pagination fetch loop of `main` (searxngr.py lines 1063-1086) is
  `fetchLoop`, written with explicit fuel because the Python `while` loop has
  no a-priori bound; all theorems about it are conditional on the loop
  returning (`some`), which is exactly Python termination.
* The interactive prompt dispatch (lines 1140-1327) is split into
  `commandOf` (the `elif` chain, which also consults `len(results)` for the
  bare-integer branch, exactly as the source does) and `act` (the effect of
  each recognised command on the session state).  `interpret` composes them.
  Network fetches happen only in the outer loop after a `break`, i.e. only
  for an `ActResult.fetch` outcome; `ActResult.cont` re-prompts without any
  backend call.
* The result renderer `print_results` (lines 80-241) is `printResults`; the
  external library calls it makes (`html2text`, `textwrap.wrap`,
  `textwrap.shorten`, `dateutil.parse`/`babel.format_date`, terminal size)
  are abstracted as the deterministic functions of a `RenderEnv`, while all
  logic written in the repository itself (slicing, domain extraction, word
  capping, category trailer dispatch, the `engines.remove` mutation) is
  translated directly.  Numeric `length` values are modelled as
  integral-valued floats (`LengthVal.ofFloat`), for which Python float
  arithmetic (`//`, `%`, `int`) is exact and agrees with `Nat` arithmetic.
* The backend client serialisation (`SearXNGClient.search`,
  lines 391-473) is `getSearchPath` / `postSearchBody`.
-/

namespace Searxngr

/-! ## Python string primitives (ASCII scope) -/

/-- Python whitespace characters stripped by `str.strip()` (ASCII scope). -/
def pySpace (c : Char) : Bool :=
  c = ' ' || c = '\t' || c = '\n' || c = '\r' || c = '\x0b' || c = '\x0c'

/-- `str.strip()`: drop leading and trailing whitespace. -/
def pyStrip (s : List Char) : List Char :=
  ((s.dropWhile pySpace).reverse.dropWhile pySpace).reverse

/-- ASCII decimal digits (the scope of `str.isdigit` we model). -/
def isDigitChar (c : Char) : Bool :=
  c ∈ ['0', '1', '2', '3', '4', '5', '6', '7', '8', '9']

/-- `str.isdigit()`: non-empty and all digits. -/
def pyIsDigit (s : List Char) : Bool :=
  !s.isEmpty && s.all isDigitChar

/-- Value of one decimal digit. -/
def digVal (c : Char) : Nat :=
  c.toNat - '0'.toNat

/-- `int(s)` for a digit string. -/
def pyToNat (s : List Char) : Nat :=
  s.foldl (fun acc c => acc * 10 + digVal c) 0

/-- `str.lower()` on one character (ASCII scope). -/
def pyLowerChar (c : Char) : Char :=
  if 'A' ≤ c ∧ c ≤ 'Z' then Char.ofNat (c.toNat + 32) else c

/-- `str.lower()`. -/
def pyLower (s : List Char) : List Char :=
  s.map pyLowerChar

/-- `str.startswith(pre)` (second argument is the prefix). -/
def startsWithL : List Char → List Char → Bool
  | _, [] => true
  | [], _ :: _ => false
  | a :: as, b :: bs => a = b && startsWithL as bs

/-- Substring containment test (`needle in hay`). -/
def containsL : List Char → List Char → Bool
  | [], needle => needle.isEmpty
  | hay@(_ :: rest), needle => startsWithL hay needle || containsL rest needle

/-- `str.replace(a, rep)` for a single-character pattern `a` (the only shape
the source ever uses, in the time-range short-token normalisation). -/
def charReplace (s : List Char) (a : Char) (rep : List Char) : List Char :=
  s.flatMap (fun c => if c = a then rep else [c])

/-! ## Pagination fetch loop

`main`, searxngr.py lines 1063-1086:

```
while len(results) <= (start_at + args.num):
    query_results = searxng.search(..., pageno=pageno, ...)
    results.extend(query_results)
    if args.num == 0 or len(query_results) == 0:
        break
    pageno += 1
```

`fetchLoop pages num startAt fuel results pageno` returns
`some (results', pageno', fetchedPages)` when the loop finishes within
`fuel` iterations, where `fetchedPages` is the ordered list of page numbers
actually requested from the backend during this round. -/

def fetchLoop {α : Type} (pages : Nat → List α) (num startAt : Nat) :
    Nat → List α → Nat → Option (List α × Nat × List Nat)
  | 0, _, _ => none
  | Nat.succ fuel, results, pageno =>
    if results.length ≤ startAt + num then
      if num = 0 ∨ (pages pageno).length = 0 then
        some (results ++ pages pageno, pageno, [pageno])
      else
        match fetchLoop pages num startAt fuel (results ++ pages pageno) (pageno + 1) with
        | none => none
        | some (res, pg, fet) => some (res, pg, pageno :: fet)
    else
      some (results, pageno, [])

/-- The display window `results[start_at : start_at + count]` passed to
`print_results` (searxngr.py lines 93-94 slice the buffer this way). -/
def windowOf {α : Type} (results : List α) (count startAt : Nat) : List α :=
  (results.drop startAt).take count

/-- Backend of the spec scenario: page 1 returns 3 records, page 2 returns
4 records; later pages are non-empty so that loop exit is forced by the
buffer-length condition alone. -/
def scenarioPages : Nat → List Nat
  | 1 => [0, 1, 2]
  | 2 => [3, 4, 5, 6]
  | _ => [100]

/-! ## Interactive session state and command interpreter

The mutable state of the interactive loop in `main` (searxngr.py): `query`,
`args.site`, `args.time_range`, `args.num`, `start_at`, `pageno`, `results`,
`args.expand` and the local `DEBUG` flag.  Result records are kept abstract
(`α`) at this level; the renderer-level mutation of records is modelled
separately by `printResults`. -/

structure Session (α : Type) where
  query : List Char
  site : Option (List Char)
  timeRange : Option (List Char)
  num : Nat
  startAt : Nat
  pageno : Nat
  results : List α
  expand : Bool
  debug : Bool
  deriving DecidableEq, Repr

/-- `t`/`--time-range` long tokens (searxngr.py line 63). -/
def TIME_RANGE_OPTIONS : List (List Char) :=
  ["day".data, "week".data, "month".data, "year".data]

/-- `t`/`--time-range` short tokens (searxngr.py line 64). -/
def TIME_RANGE_SHORT_OPTIONS : List (List Char) :=
  ["d".data, "w".data, "m".data, "y".data]

/-- Short-token normalisation (searxngr.py lines 1250-1256): the chain
`.replace("y","year").replace("m","month").replace("w","week").replace("d","day")`. -/
def normalizeTimeRange (t : List Char) : List Char :=
  charReplace (charReplace (charReplace (charReplace t 'y' "year".data)
    'm' "month".data) 'w' "week".data) 'd' "day".data

/-- Syntactic command recognised by the prompt loop's `elif` chain
(searxngr.py lines 1152-1327).  Payloads are the already-sliced/stripped
argument strings, computed exactly as the source computes them. -/
inductive Cmd
  | quit
  | help
  | openIndex (n : Nat)
  | copy (arg : List Char)
  | next
  | prev
  | first
  | timeCmd (arg : List Char)
  | siteCmd (arg : List Char)
  | toggleExpand
  | settings
  | toggleDebug
  | jsonDump (arg : List Char)
  | newQuery (q : List Char)
  | empty
  deriving DecidableEq, Repr

/-- The dispatch chain of the prompt loop.  It consults the current number of
buffered results because the bare-integer branch tests
`int(new_query.strip()) in range(1, len(results) + 1)`; an integer outside
that range falls through to the later branches.  Slice arguments use the
*unstripped* input (`new_query[2:]`, `new_query[5:]`), as in the source. -/
def commandOf (resultsLen : Nat) (input : List Char) : Cmd :=
  let t := pyStrip input
  if pyLower t = "q".data ∨ pyLower t = "quit".data ∨ pyLower t = "exit".data then
    .quit
  else if t = "?".data then
    .help
  else if pyIsDigit t ∧ 1 ≤ pyToNat t ∧ pyToNat t ≤ resultsLen then
    .openIndex (pyToNat t)
  else if startsWithL t "c ".data then
    .copy (pyStrip (input.drop 2))
  else if t = "n".data then
    .next
  else if t = "p".data then
    .prev
  else if t = "f".data then
    .first
  else if startsWithL t "t ".data then
    .timeCmd (pyStrip (input.drop 2))
  else if startsWithL t "site:".data then
    .siteCmd (pyStrip (input.drop 5))
  else if t = "x".data then
    .toggleExpand
  else if t = "s".data then
    .settings
  else if t = "d".data then
    .toggleDebug
  else if startsWithL t "j ".data then
    .jsonDump (pyStrip (input.drop 2))
  else if t ≠ [] then
    .newQuery t
  else
    .empty

/-- Outcome of one prompt-loop iteration.  `cont s shown` corresponds to a
`continue` (re-prompt; `shown` is the buffer window re-rendered by a
`print_results` call inside the handler, if any).  `fetch s` corresponds to
`break`, which re-enters the outer fetch round; backend network calls happen
only there. -/
inductive ActResult (α : Type)
  | quit
  | cont (s : Session α) (shown : Option (List α))
  | fetch (s : Session α)
  deriving DecidableEq, Repr

/-- Effect of each recognised command on the session state, translated from
the handler bodies (searxngr.py lines 1152-1327). -/
def act {α : Type} (s : Session α) : Cmd → ActResult α
  | .quit => .quit
  | .help => .cont s none
  | .openIndex _ => .cont s none
  | .copy _ => .cont s none
  | .next =>
    -- start_at += num; if len(results) >= start_at + num: print, continue
    -- else: pageno += 1; break
    let startAt' := s.startAt + s.num
    if s.results.length ≥ startAt' + s.num then
      .cont { s with startAt := startAt' } (some (windowOf s.results s.num startAt'))
    else
      .fetch { s with startAt := startAt', pageno := s.pageno + 1 }
  | .prev =>
    -- start_at -= args.num if start_at >= args.num else 0
    let startAt' := if s.startAt ≥ s.num then s.startAt - s.num else s.startAt
    .cont { s with startAt := startAt' } (some (windowOf s.results s.num startAt'))
  | .first =>
    .cont { s with startAt := 0 } (some (windowOf s.results s.num 0))
  | .timeCmd arg =>
    if arg ∈ TIME_RANGE_OPTIONS ∨ arg ∈ TIME_RANGE_SHORT_OPTIONS then
      let tr := if arg ∈ TIME_RANGE_SHORT_OPTIONS then normalizeTimeRange arg else arg
      .fetch { s with timeRange := some tr, startAt := 0, pageno := 1, results := [] }
    else
      .cont s none
  | .siteCmd v =>
    .fetch { s with site := some v, startAt := 0, pageno := 1, results := [] }
  | .toggleExpand =>
    .cont { s with expand := !s.expand }
      (some (windowOf s.results s.num s.startAt))
  | .settings => .cont s none
  | .toggleDebug => .cont { s with debug := !s.debug } none
  | .jsonDump _ => .cont s none
  | .newQuery q =>
    .fetch { s with query := q, startAt := 0, pageno := 1, results := [] }
  | .empty => .cont s none

/-- One prompt-loop iteration on a line of input. -/
def interpret {α : Type} (s : Session α) (input : List Char) : ActResult α :=
  act s (commandOf s.results.length input)

/-- One fetch round of the outer loop: run `fetchLoop` from the current
session state and record the pages fetched. -/
def runRound {α : Type} (pages : Nat → List α) (fuel : Nat) (s : Session α) :
    Option (Session α × List Nat) :=
  match fetchLoop pages s.num s.startAt fuel s.results s.pageno with
  | none => none
  | some (res, pg, fet) => some ({ s with results := res, pageno := pg }, fet)

/-! ## Result renderer (`print_results`, searxngr.py lines 80-241) -/

/-- Python `sep.join(l)`. -/
def joinSep (sep : String) : List String → String
  | [] => ""
  | [x] => x
  | x :: xs => x ++ sep ++ joinSep sep xs

/-- Decimal representation of a `Nat` (models Python `f"{n}"`), written with
explicit fuel so every theorem can be checked by kernel reduction. -/
def natDigits : Nat → Nat → List Char
  | 0, _ => []
  | Nat.succ fuel, n =>
    if n < 10 then [Char.ofNat ('0'.toNat + n)]
    else natDigits fuel (n / 10) ++ [Char.ofNat ('0'.toNat + n % 10)]

/-- `f"{n}"`. -/
def natRepr (n : Nat) : String :=
  ⟨natDigits (n + 1) n⟩

/-- Python `f"{n:02}"`: zero-pad to width 2. -/
def pad2 (n : Nat) : String :=
  if n < 10 then "0" ++ natRepr n else natRepr n

/-- Python `f"{n:>2}"`: right-align in width 2. -/
def rightAlign2 (n : Nat) : String :=
  if n < 10 then " " ++ natRepr n else natRepr n

/-- The `length` field of a record: either a number (modelled as an
integral-valued float, for which Python's `//`, `%` and `int` are exact and
agree with `Nat` arithmetic) or an already-formatted string. -/
inductive LengthVal
  | ofFloat (seconds : Nat)
  | ofString (s : String)
  deriving DecidableEq, Repr

/-- `address` sub-fields of a map record. -/
structure Address where
  house_number : Option String := none
  road : Option String := none
  locality : Option String := none
  postcode : Option String := none
  country : Option String := none
  deriving DecidableEq, Repr

/-- One backend search hit, with the fields `print_results` reads.  Numeric
JSON fields that the renderer only ever interpolates into f-strings
(`longitude`, `latitude`, `seed`, `leech`, `filesize`) are modelled as their
printed string form. -/
structure ResultRecord where
  title : Option String := none
  url : Option String := none
  content : Option String := none
  category : Option String := none
  template : Option String := none
  engine : Option String := none
  engines : List String := []
  publishedDate : Option String := none
  author : Option String := none
  length : Option LengthVal := none
  source : Option String := none
  resolution : Option String := none
  img_src : Option String := none
  address : Option Address := none
  longitude : Option String := none
  latitude : Option String := none
  journal : Option String := none
  publisher : Option String := none
  magnetlink : Option String := none
  seed : Option String := none
  leech : Option String := none
  filesize : Option String := none
  metadata : Option String := none
  size : Option String := none
  deriving DecidableEq, Repr

/-- Python truthiness of an optional string field (`None` and `""` falsy). -/
def truthyS (o : Option String) : Bool :=
  o.getD "" ≠ ""

/-- Python `f"{x}"` for a possibly-`None` field: `None` prints `"None"`. -/
def optStr (o : Option String) : String :=
  o.getD "None"

/-- External library calls made by `print_results`, abstracted as
deterministic functions: `html2text` (line 116), `textwrap.wrap`
(line 123, first argument is the width), `textwrap.shorten(width=70)`
(line 98), and the `dateutil.parse` + `babel.format_date` pipeline
(lines 131-132; `none` models a parse exception).  `termWidth` is
`os.get_terminal_size().columns`. -/
structure RenderEnv where
  html2text : String → String
  wrap : Nat → String → List String
  shorten70 : String → String
  parseDate : String → Option String
  termWidth : Nat

/-- Domain extraction (searxngr.py lines 101-108): split on `"//"`, take the
host part of the segment after the scheme, or of the whole string when no
scheme separator is present; empty URL gives an empty domain. -/
def extractDomain (url : String) : String :=
  if url = "" then ""
  else
    match url.splitOn "//" with
    | _ :: second :: _ => ((second.splitOn "/").headD "")
    | first :: [] => ((first.splitOn "/").headD "")
    | [] => ""

/-- Length conversion for videos/music records (searxngr.py lines 166-168 and
177-179): `f"{int(length // 60):02}:{int(length % 6):02}"`.  Note the source
takes the seconds component modulo `6`. -/
def fmtLength (seconds : Nat) : String :=
  pad2 (seconds / 60) ++ ":" ++ pad2 (seconds % 6)

/-- MM:SS notation as the spec defines it (minutes `= ⌊length/60⌋`, seconds
`= ⌊length⌋ mod 60`, both zero-padded to two digits).  This is the
spec-side reference the source's `fmtLength` is compared against. -/
def specMMSS (seconds : Nat) : String :=
  pad2 (seconds / 60) ++ ":" ++ pad2 (seconds % 60)

/-- The string value of the `length` field after the float conversion
(`none` when the field is absent). -/
def lengthStr (l : Option LengthVal) : Option String :=
  l.map (fun v => match v with
    | .ofFloat n => fmtLength n
    | .ofString s => s)

/-- The `author`/`length` trailer line shared by the videos and music
branches (searxngr.py lines 164-172 / 175-183): emitted when `author or
length` is truthy. -/
def lengthAuthorLines (author : Option String) (length : Option LengthVal) :
    List String :=
  let lv := (lengthStr length).getD ""
  if truthyS author ∨ lv ≠ "" then
    ["     [cyan dim]" ++ lv ++ "[/cyan dim] " ++ author.getD ""]
  else
    []

/-- Videos trailer (searxngr.py lines 163-172). -/
def videosTrailer (r : ResultRecord) : List String :=
  if r.category = some "videos" then lengthAuthorLines r.author r.length else []

/-- Music trailer (searxngr.py lines 174-183): guarded by
`category == "music" and result.get("publishedDate")`. -/
def musicTrailer (r : ResultRecord) : List String :=
  if r.category = some "music" ∧ truthyS r.publishedDate then
    lengthAuthorLines r.author r.length
  else
    []

/-- The parsed-and-formatted publish date (searxngr.py lines 126-135):
`None` unless the raw field is truthy, strips to non-empty, and parses. -/
def publishedDateOf (env : RenderEnv) (r : ResultRecord) : Option String :=
  match r.publishedDate with
  | some ds => if ds.trim ≠ "" then env.parseDate ds.trim else none
  | none => none

/-- Post-render mutation of a record: `engines.remove(engine) if engine in
engines else None` (searxngr.py line 237) removes the first occurrence of
the primary engine name from the record's `engines` list, in place. -/
def mutateRecord (r : ResultRecord) : ResultRecord :=
  match r.engine with
  | some e => if e ∈ r.engines then { r with engines := r.engines.erase e } else r
  | none => r

/-- The trailing source-engines line (searxngr.py lines 236-240): the
primary engine in bold, followed by the remaining contributing engines after
the in-place `engines.remove(engine)` of line 237. -/
def enginesLine (r : ResultRecord) : String :=
  "     [dim]\\[[bold]" ++ optStr r.engine ++ "[/bold]" ++
    (if (mutateRecord r).engines.length > 0 then
      ", " ++ joinSep ", " (mutateRecord r).engines
    else "") ++
    "][/dim]"

/-- Lines printed for one record at (1-based) display index `i`, together
with the record as mutated by the engines-line rendering.  Each element is
the argument of one `console.print` call (markup included verbatim; the map
branch's single three-argument `print` becomes one space-joined string). -/
def renderResult (env : RenderEnv) (i : Nat) (expand : Bool)
    (r : ResultRecord) : List String × ResultRecord :=
  let title := env.shorten70 (r.title.getD "No title")
  let url := r.url.getD ""
  let domain := extractDomain url
  let contentRaw := r.content.getD ""
  let contentText := if contentRaw ≠ "" then (env.html2text contentRaw).trim else ""
  let contentWords := if contentText ≠ "" then contentText.splitOn " " else []
  let contentStr :=
    if contentWords.length > 128 then
      joinSep " " (contentWords.take 128) ++ " ..."
    else
      joinSep " " contentWords
  let contentLines := env.wrap (env.termWidth - 5) contentStr
  let published_date := publishedDateOf env r
  let header :=
    " [cyan]" ++ rightAlign2 i ++ ".[/cyan] [bold green]" ++ title ++
      "[/bold green] [yellow]\\[" ++ domain ++ "][/yellow]"
  let urlLines := if expand then ["     [link=" ++ url ++ "]" ++ url ++ "[/link]"] else []
  let bodyLines := contentLines.map (fun l => "     " ++ l)
  let newsLines :=
    if r.category = some "news" ∧ truthyS published_date then
      ["     [cyan dim]" ++ published_date.getD "" ++ "[/cyan dim]"]
    else []
  let imagesLines :=
    if r.category = some "images" then
      (if truthyS r.source ∨ truthyS r.resolution then
        ["     [cyan dim]" ++ r.resolution.getD "" ++ "[/cyan dim] " ++ r.source.getD ""]
      else []) ++
      ["     [link=" ++ optStr r.img_src ++ "]" ++ optStr r.img_src ++ "[/link]"]
    else []
  let mapLines :=
    if r.category = some "map" then
      (match r.address with
        | some a =>
          ["     " ++ (if truthyS a.house_number then a.house_number.getD "" ++ " " else "")
            ++ a.road.getD "" ++ "\n" ++ " " ++
            "    " ++ a.locality.getD "" ++ ", " ++ a.postcode.getD "" ++ "\n" ++ " " ++
            "    " ++ a.country.getD ""]
        | none => []) ++
      ["     [cyan dim]" ++ optStr r.latitude ++ ", " ++ optStr r.longitude ++ "[/cyan dim]"]
    else []
  let scienceLines :=
    if r.category = some "science" then
      ["     [cyan dim][bold]" ++
        (match published_date with
          | some d => if d ≠ "" then d ++ " " else ""
          | none => "") ++ "[/bold]" ++
        (if truthyS r.journal then r.journal.getD "" ++ " " else "") ++
        (if truthyS r.publisher then r.publisher.getD "" ++ " " else "") ++ "[/cyan dim]"]
    else []
  let filesLines :=
    if r.category = some "files" then
      if r.template = some "torrent.html" then
        ["     [dim]" ++ optStr r.magnetlink ++ "[/dim]",
         "     [cyan dim]" ++ optStr r.filesize ++ "[/cyan dim] ↑" ++ optStr r.seed ++
           " seeders, ↓" ++ optStr r.leech ++ " leechers"]
      else if r.template = some "files.html" then
        ["     [cyan dim]" ++ optStr r.size ++ " " ++ optStr r.metadata ++ "[/cyan dim]"]
      else []
    else []
  let socialLines :=
    if r.category = some "social media" ∧ truthyS published_date then
      ["     [cyan dim]" ++ published_date.getD "" ++ "[/cyan dim]"]
    else []
  (header :: urlLines ++ bodyLines ++ newsLines ++ imagesLines ++
     videosTrailer r ++ musicTrailer r ++ mapLines ++ scienceLines ++
     filesLines ++ socialLines ++ [enginesLine r, ""],
   mutateRecord r)

/-- Render the records of the display window, enumerating 1-based display
indices starting at `startAt + 1` (the `enumerate(..., start=start_at + 1)`
of line 93). -/
def renderWindow (env : RenderEnv) (expand : Bool) :
    Nat → List ResultRecord → List String × List ResultRecord
  | _, [] => ([], [])
  | i, r :: rs =>
    ((renderResult env i expand r).1 ++ (renderWindow env expand (i + 1) rs).1,
     (renderResult env i expand r).2 :: (renderWindow env expand (i + 1) rs).2)

/-- `print_results(results, count, start_at, expand)`: returns the full
terminal output (one entry per `console.print` call, leading blank line
included) and the results list after the in-place record mutations.  Only
the records of the displayed slice `results[start_at : start_at + count]`
are rendered and mutated. -/
def printResults (env : RenderEnv) (results : List ResultRecord)
    (count startAt : Nat) (expand : Bool) : List String × List ResultRecord :=
  ("" :: (renderWindow env expand (startAt + 1) (windowOf results count startAt)).1,
   results.take startAt ++
     (renderWindow env expand (startAt + 1) (windowOf results count startAt)).2 ++
     results.drop (startAt + count))

/-! ## Backend client request serialisation (`SearXNGClient.search`,
searxngr.py lines 391-473) -/

/-- `",".join(l)`. -/
def joinComma (l : List String) : String :=
  joinSep "," l

/-- `query = f"site:{site} {query}" if site else query` (line 420). -/
def effectiveQuery (site : Option String) (query : String) : String :=
  match site with
  | some st => "site:" ++ st ++ " " ++ query
  | none => query

/-- Safe-search ordinal map (lines 45-49; `main` validates membership before
the client is ever called, so the fallback branch is unreachable there). -/
def safeSearchNum (s : String) : String :=
  if s = "none" then "0"
  else if s = "moderate" then "1"
  else if s = "strict" then "2"
  else ""

/-- POST-only category translation (lines 435-439): when the list contains
`"social+media"`, every such entry is replaced by `"social media"` (the
source mutates the caller's list in place; we return the new list). -/
def translateCategories (categories : List String) : List String :=
  if "social+media" ∈ categories then
    categories.map (fun c => if c = "social+media" then "social media" else c)
  else
    categories

/-- The form body built for `http_method == "POST"` (lines 428-451), as an
ordered association list (Python dict insertion order).  Empty lists and
`none` fields model falsy values and are omitted, as in the source. -/
def postSearchBody (query : String) (site : Option String)
    (categories engines : List String) (language : Option String)
    (pageno : Nat) (safe_search time_range : Option String) :
    List (String × String) :=
  [("q", effectiveQuery site query), ("format", "json")] ++
  (if categories ≠ [] then [("categories", joinComma (translateCategories categories))] else []) ++
  (if engines ≠ [] ∧ categories = [] then [("engines", joinComma engines)] else []) ++
  (match language with | some l => [("language", l)] | none => []) ++
  (if pageno > 1 then [("pageno", natRepr pageno)] else []) ++
  (match safe_search with | some ss => [("safesearch", safeSearchNum ss)] | none => []) ++
  (match time_range with | some tr => [("time_range", tr)] | none => [])

/-- Python `c.isprintable()` (ASCII scope: space through tilde). -/
def pyPrintable (c : Char) : Bool :=
  0x20 ≤ c.toNat ∧ c.toNat ≤ 0x7e

/-- Line 473: `path = "".join(c for c in path if c.isprintable())`. -/
def filterPrintable (s : String) : String :=
  ⟨s.data.filter pyPrintable⟩

/-- The request path built for `http_method == "GET"` (lines 455-467),
including the final printable-character filter of line 473.  No category
translation happens on this path. -/
def getSearchPath (query : String) (site : Option String)
    (categories engines : List String) (language : Option String)
    (pageno : Nat) (safe_search time_range : Option String) : String :=
  filterPrintable <|
    "/search?q=" ++ effectiveQuery site query ++ "&format=json" ++
    (if categories ≠ [] then "&categories=" ++ joinComma categories else "") ++
    (if engines ≠ [] ∧ categories = [] then "&engines=" ++ joinComma engines else "") ++
    (match language with | some l => "&language=" ++ l | none => "") ++
    (match safe_search with | some ss => "&safesearch=" ++ safeSearchNum ss | none => "") ++
    (match time_range with | some tr => "&time_range=" ++ tr | none => "") ++
    (if pageno > 1 then "&pageno=" ++ natRepr pageno else "")

/-- Substring containment on strings (`needle in hay`). -/
def containsS (hay needle : String) : Bool :=
  containsL hay.data needle.data

/-- A concrete environment for evaluating the renderer on closed inputs
(plain-text content passes through `html2text` unchanged; wrapping keeps a
short line whole and drops an empty one, as `textwrap.wrap` does). -/
def env0 : RenderEnv :=
  { html2text := id
    wrap := fun _ s => if s = "" then [] else [s]
    shorten70 := id
    parseDate := fun _ => none
    termWidth := 80 }

/-- The fresh session of the spec scenario: query `cats`, `num = 5`, no
filters, empty buffer, page counter 1. -/
def scenarioSession : Session Nat :=
  { query := "cats".data, site := none, timeRange := none, num := 5,
    startAt := 0, pageno := 1, results := [], expand := false, debug := false }

/-! ## Helper lemmas -/

/-- Full characterisation of a terminating fetch round: the final buffer is
the initial one extended by the fetched pages in order; the fetched page
numbers are consecutive from the entry page counter; every fetch was issued
only while the buffer did not yet cover the window; every non-final fetch
returned a non-empty page (and was not in `num = 0` mode); and on exit
either the buffer covers the window or the last fetch stopped the loop
(`num = 0` or an empty page). -/
theorem fetchLoop_char {α : Type} (pages : Nat → List α) (num startAt : Nat) :
    ∀ (fuel : Nat) (res : List α) (pg : Nat) (res' : List α) (pg' : Nat) (fet : List Nat),
      fetchLoop pages num startAt fuel res pg = some (res', pg', fet) →
      res' = res ++ (fet.map pages).flatten ∧
      fet = List.range' pg fet.length ∧
      (∀ i, i < fet.length →
        (res ++ ((fet.take i).map pages).flatten).length ≤ startAt + num) ∧
      (∀ i, i + 1 < fet.length → num ≠ 0 ∧ pages (fet.getD i 0) ≠ []) ∧
      (startAt + num < res'.length ∨
        ∃ l, fet.getLast? = some l ∧ (num = 0 ∨ pages l = [])) := by
  intro fuel
  induction fuel with
  | zero => intro res pg res' pg' fet h; simp [fetchLoop] at h
  | succ fuel ih =>
    intro res pg res' pg' fet h
    rw [fetchLoop] at h
    split at h
    · rename_i hle
      split at h
      · rename_i hstop
        simp only [Option.some.injEq, Prod.mk.injEq] at h
        obtain ⟨h1, h2, h3⟩ := h
        subst h1; subst h2; subst h3
        refine ⟨by simp, by simp [List.range'], ?_, ?_, ?_⟩
        · intro i hi
          simp only [List.length_cons, List.length_nil] at hi
          have : i = 0 := by omega
          subst this
          simpa using hle
        · intro i hi
          simp only [List.length_cons, List.length_nil] at hi
          omega
        · refine Or.inr ⟨pg, by simp, ?_⟩
          rcases hstop with h0 | h0
          · exact Or.inl h0
          · exact Or.inr (List.length_eq_zero.mp h0)
      · rename_i hgo
        push_neg at hgo
        obtain ⟨hnum, hne⟩ := hgo
        split at h
        · exact absurd h (by simp)
        · rename_i res0 pg0 fet0 hrec
          simp only [Option.some.injEq, Prod.mk.injEq] at h
          obtain ⟨e1, e2, e3⟩ := h
          subst e1; subst e2; subst e3
          obtain ⟨g1, g2, g3, g4, g5⟩ := ih _ _ _ _ _ hrec
          refine ⟨?_, ?_, ?_, ?_, ?_⟩
          · rw [g1]; simp
          · simp only [List.length_cons, List.range'_succ]
            exact congrArg (pg :: ·) g2
          · intro i hi
            cases i with
            | zero => simpa using hle
            | succ j =>
              have hj : j < fet0.length := by simpa using hi
              have := g3 j hj
              simpa [List.take_succ_cons, ← List.append_assoc] using this
          · intro i hi
            cases i with
            | zero =>
              refine ⟨hnum, ?_⟩
              simpa using fun hc => hne (by rw [hc]; rfl)
            | succ j =>
              have hj : j + 1 < fet0.length := by simpa using hi
              simpa using g4 j hj
          · rcases g5 with g5 | ⟨l, hl1, hl2⟩
            · exact Or.inl g5
            · refine Or.inr ⟨l, ?_, hl2⟩
              cases fet0 with
              | nil => simp at hl1
              | cons a t => rw [List.getLast?_cons_cons]; exact hl1
    · rename_i hgt
      simp only [Option.some.injEq, Prod.mk.injEq] at h
      obtain ⟨e1, e2, e3⟩ := h
      subst e1; subst e2; subst e3
      refine ⟨by simp, by simp, by intro i hi; simp at hi, by intro i hi; simp at hi, ?_⟩
      exact Or.inl (by omega)

/-- Association-list lookup for the POST form body (Python dict access). -/
def lookupKey : List (String × String) → String → Option String
  | [], _ => none
  | (k, v) :: rest, key => if key = k then some v else lookupKey rest key

theorem startsWithL_append (n b : List Char) : startsWithL (n ++ b) n = true := by
  induction n with
  | nil => cases b <;> simp [startsWithL]
  | cons c cs ih => simp [startsWithL, ih]

theorem containsL_of_startsWithL {h n : List Char} (hs : startsWithL h n = true) :
    containsL h n = true := by
  cases h with
  | nil => cases n with
    | nil => simp [containsL]
    | cons c cs => simp [startsWithL] at hs
  | cons c cs => simp [containsL, hs]

theorem containsL_append_left (a : List Char) {b n : List Char}
    (hb : containsL b n = true) : containsL (a ++ b) n = true := by
  induction a with
  | nil => simpa using hb
  | cons c cs ih => simp [containsL, ih]

theorem data_append (a b : String) : (a ++ b).data = a.data ++ b.data := rfl

/-- A member of a list occurs as a substring of its comma-join. -/
theorem containsS_joinComma {l : List String} {x : String} (h : x ∈ l) :
    containsS (joinComma l) x = true := by
  induction l with
  | nil => simp at h
  | cons y ys ih =>
    cases ys with
    | nil =>
      simp only [List.mem_singleton] at h
      subst h
      simp only [joinComma, joinSep, containsS]
      exact containsL_of_startsWithL (by simpa using startsWithL_append x.data [])
    | cons z zs =>
      rcases List.mem_cons.mp h with rfl | hmem
      · simp only [joinComma, joinSep, containsS]
        show containsL (x ++ "," ++ joinSep "," (z :: zs)).data x.data = true
        have : (x ++ "," ++ joinSep "," (z :: zs)).data =
            x.data ++ (("," ++ joinSep "," (z :: zs)).data) := by
          rw [String.append_assoc, data_append]
        rw [this]
        exact containsL_of_startsWithL (startsWithL_append _ _)
      · have hb := ih hmem
        simp only [joinComma, joinSep, containsS] at hb ⊢
        show containsL (y ++ "," ++ joinSep "," (z :: zs)).data x.data = true
        have : (y ++ "," ++ joinSep "," (z :: zs)).data =
            (y ++ ",").data ++ (joinSep "," (z :: zs)).data := by
          rw [data_append]
        rw [this]
        exact containsL_append_left _ hb

/-- An ASCII digit is unchanged by `lower()` and distinct from every command
head character of the prompt grammar. -/
theorem digit_facts {c : Char} (h : isDigitChar c = true) :
    pyLowerChar c = c ∧ c ≠ 'q' ∧ c ≠ 'e' ∧ c ≠ '?' ∧ c ≠ 'c' ∧ c ≠ 'n' ∧ c ≠ 'p' ∧
    c ≠ 'f' ∧ c ≠ 't' ∧ c ≠ 's' ∧ c ≠ 'x' ∧ c ≠ 'd' ∧ c ≠ 'j' := by
  simp only [isDigitChar, List.mem_cons, List.not_mem_nil, or_false,
    decide_eq_true_eq] at h
  rcases h with rfl | rfl | rfl | rfl | rfl | rfl | rfl | rfl | rfl | rfl <;> decide

/-- A session holding 7 buffered results after one fetch round. -/
def sess7 : Session Nat :=
  { query := "cats".data, site := none, timeRange := none, num := 5,
    startAt := 0, pageno := 3, results := [10, 11, 12, 13, 14, 15, 16],
    expand := false, debug := false }

/-- A record whose `engines` list holds its primary engine name twice. -/
def rDup : ResultRecord := { engine := some "e1", engines := ["e1", "e1"] }

/-- A record whose `engines` list holds its primary engine name once. -/
def rOk : ResultRecord := { engine := some "e1", engines := ["e1", "e2"] }

/-- A music record carrying a publish date, an author and a float length. -/
def rMusic : ResultRecord :=
  { category := some "music", author := some "Artist",
    publishedDate := some "2024-01-01", length := some (.ofFloat 70) }

theorem renderResult_snd (env : RenderEnv) (i : Nat) (expand : Bool) (r : ResultRecord) :
    (renderResult env i expand r).2 = mutateRecord r := rfl

theorem renderWindow_snd (env : RenderEnv) (expand : Bool) :
    ∀ (i : Nat) (w : List ResultRecord),
      (renderWindow env expand i w).2 = w.map mutateRecord := by
  intro i w
  induction w generalizing i with
  | nil => rfl
  | cons r rs ih => simp [renderWindow, renderResult_snd, ih]

/-- The record list returned by `printResults` is the original list with the
rendered window replaced by its in-place-mutated records. -/
theorem printResults_snd (env : RenderEnv) (results : List ResultRecord)
    (count startAt : Nat) (expand : Bool) :
    (printResults env results count startAt expand).2 =
      results.take startAt ++ (windowOf results count startAt).map mutateRecord ++
        results.drop (startAt + count) := by
  rw [printResults, renderWindow_snd]

/-- Index-wise description of a list whose slice `[a, a+c)` has been mapped
through `f`. -/
theorem decomp_getElem {α : Type} (l : List α) (a c : Nat) (f : α → α) (i : Nat) :
    ((l.take a ++ ((l.drop a).take c).map f) ++ l.drop (a + c))[i]? =
      if a ≤ i ∧ i < a + c then (l[i]?).map f else l[i]? := by
  have hL1 : (l.take a).length = min a l.length := by simp
  have hL2 : (((l.drop a).take c).map f).length = min c (l.length - a) := by simp
  rcases Nat.lt_or_ge i (l.take a).length with h1 | h1
  · have hia : i < a := by omega
    rw [List.getElem?_append_left (by rw [List.length_append]; omega),
      List.getElem?_append_left h1, List.getElem?_take, if_pos hia, if_neg (by omega)]
  · rcases Nat.lt_or_ge (i - (l.take a).length) (((l.drop a).take c).map f).length with h2 | h2
    · have hal : a ≤ l.length := by omega
      rw [List.getElem?_append_left (by rw [List.length_append]; omega),
        List.getElem?_append_right h1, List.getElem?_map, List.getElem?_take]
      have h2' : i - (l.take a).length < c := by omega
      rw [if_pos h2', List.getElem?_drop]
      have hidx : a + (i - (l.take a).length) = i := by omega
      rw [hidx, if_pos (by omega)]
    · rw [List.getElem?_append_right (by rw [List.length_append]; omega), List.getElem?_drop]
      rw [List.length_append]
      rcases Nat.lt_or_ge i l.length with h3 | h3
      · have hidx :
            a + c + (i - ((l.take a).length + (((l.drop a).take c).map f).length)) = i := by
          omega
        rw [hidx, if_neg (by omega)]
      · rw [List.getElem?_eq_none h3, List.getElem?_eq_none (by omega)]
        simp

/-- `engines.remove(engine)` on a record that lists its primary engine:
exactly the `engines` field changes (first occurrence erased), so the record
object differs afterwards. -/
theorem mutateRecord_spec (r : ResultRecord) (e : String)
    (h1 : r.engine = some e) (h2 : e ∈ r.engines) :
    mutateRecord r = { r with engines := r.engines.erase e } ∧ mutateRecord r ≠ r := by
  have hm : mutateRecord r = { r with engines := r.engines.erase e } := by
    simp only [mutateRecord, h1, if_pos h2]
  refine ⟨hm, ?_⟩
  rw [hm]
  intro hcontra
  have heng := congrArg ResultRecord.engines hcontra
  simp only [] at heng
  have hlen := congrArg List.length heng
  rw [List.length_erase_of_mem h2] at hlen
  have hpos : 0 < r.engines.length := List.length_pos.mpr (List.ne_nil_of_mem h2)
  omega

theorem mutateRecord_eta (r : ResultRecord) :
    mutateRecord r = { r with engines := (mutateRecord r).engines } := by
  cases he : r.engine with
  | none =>
    simp only [mutateRecord, he]
    rw [← he]
  | some e =>
    by_cases hm : e ∈ r.engines
    · simp only [mutateRecord, he, if_pos hm]
    · simp only [mutateRecord, he, if_neg hm]
      rw [← he]

theorem mutateRecord_engine (r : ResultRecord) : (mutateRecord r).engine = r.engine := by
  cases he : r.engine with
  | none => simp [mutateRecord, he]
  | some e =>
    by_cases hm : e ∈ r.engines
    · simp [mutateRecord, he, hm]
    · simp [mutateRecord, he, hm]

theorem videosTrailer_engines (r : ResultRecord) (x : List String) :
    videosTrailer { r with engines := x } = videosTrailer r := rfl

theorem musicTrailer_engines (r : ResultRecord) (x : List String) :
    musicTrailer { r with engines := x } = musicTrailer r := rfl

theorem publishedDateOf_engines (env : RenderEnv) (r : ResultRecord) (x : List String) :
    publishedDateOf env { r with engines := x } = publishedDateOf env r := rfl

/-- When the primary engine occurs at most once in `engines`, the in-place
removal is idempotent. -/
theorem mutateRecord_idem (r : ResultRecord)
    (h : ∀ e, r.engine = some e → r.engines.count e ≤ 1) :
    mutateRecord (mutateRecord r) = mutateRecord r := by
  cases he : r.engine with
  | none => simp [mutateRecord, he]
  | some e =>
    by_cases hm : e ∈ r.engines
    · have hm1 : mutateRecord r = { r with engines := r.engines.erase e } :=
        (mutateRecord_spec r e he hm).1
      rw [hm1]
      have hnot : e ∉ r.engines.erase e := by
        have hc := h e he
        have := List.count_erase_self e r.engines
        intro hmem
        have hpos := List.count_pos_iff.mpr hmem
        omega
      simp [mutateRecord, he, hnot]
    · have hm1 : mutateRecord r = r := by simp [mutateRecord, he, hm]
      rw [hm1, hm1]

theorem enginesLine_mutate (r : ResultRecord)
    (h : ∀ e, r.engine = some e → r.engines.count e ≤ 1) :
    enginesLine (mutateRecord r) = enginesLine r := by
  unfold enginesLine
  rw [mutateRecord_idem r h, mutateRecord_engine r]

/-- Rendering an already-mutated record produces the same output lines as
rendering the original, provided the primary engine occurred at most once. -/
theorem renderResult_fst_mutate (env : RenderEnv) (i : Nat) (expand : Bool)
    (r : ResultRecord) (h : ∀ e, r.engine = some e → r.engines.count e ≤ 1) :
    (renderResult env i expand (mutateRecord r)).1 = (renderResult env i expand r).1 := by
  have hEL := enginesLine_mutate r h
  conv_lhs => rw [mutateRecord_eta r]
  simp only [renderResult, videosTrailer_engines, musicTrailer_engines,
    publishedDateOf_engines]
  rw [show enginesLine { r with engines := (mutateRecord r).engines } = enginesLine r from by
    rw [← mutateRecord_eta r]; exact hEL]

theorem renderWindow_fst_mutate (env : RenderEnv) (expand : Bool) :
    ∀ (i : Nat) (w : List ResultRecord),
      (∀ r ∈ w, ∀ e, r.engine = some e → r.engines.count e ≤ 1) →
      (renderWindow env expand i (w.map mutateRecord)).1 =
        (renderWindow env expand i w).1 := by
  intro i w
  induction w generalizing i with
  | nil => intro _; rfl
  | cons r rs ih =>
    intro h
    simp only [List.map_cons, renderWindow]
    rw [renderResult_fst_mutate env i expand r (h r (List.mem_cons_self r rs)),
      ih (i + 1) (fun r' hr' => h r' (List.mem_cons_of_mem r hr'))]

theorem window_of_decomp (l : List ResultRecord) (a c : Nat) :
    windowOf (l.take a ++ (windowOf l c a).map mutateRecord ++ l.drop (a + c)) c a =
      (windowOf l c a).map mutateRecord := by
  apply List.ext_getElem?
  intro n
  simp only [windowOf]
  by_cases hn : n < c
  · conv_lhs => rw [List.getElem?_take, if_pos hn, List.getElem?_drop]
    rw [decomp_getElem l a c mutateRecord (a + n), if_pos (by omega)]
    conv_rhs => rw [List.getElem?_map, List.getElem?_take, if_pos hn, List.getElem?_drop]
  · conv_lhs => rw [List.getElem?_take, if_neg hn]
    conv_rhs => rw [List.getElem?_map, List.getElem?_take, if_neg hn]
    rfl

/-! ## Claims -/

/-- **C2**: in each fetch round, (a) with `num = 0` exactly one backend fetch
occurs regardless of how many records it returns (from a fresh round:
`results = []`, `start_at = 0`, any page counter, any backend); (b) with
`num = N > 0` every fetch is issued only while the buffer length is still
`≤ window_start + N` (so no further fetch once it exceeds), every non-final
fetch returned a non-empty page (so no further fetch after an empty page),
and the round ends with the buffer covering the window or the last fetch
empty; (c) in the spec scenario (`num = 5`, page 1 → 3 records, page 2 →
4 records) exactly 2 fetches are issued, the buffer holds 7 records, and
the displayed window is `records[0:5]`. -/
theorem pagination_fetch_policy :
    (∀ (α : Type) (pages : Nat → List α) (fuel pageno : Nat),
      fetchLoop pages 0 0 (fuel + 1) [] pageno = some (pages pageno, pageno, [pageno])) ∧
    (∀ (α : Type) (pages : Nat → List α) (num startAt fuel : Nat)
        (res res' : List α) (pg pg' : Nat) (fet : List Nat),
      0 < num →
      fetchLoop pages num startAt fuel res pg = some (res', pg', fet) →
      ((∀ i, i < fet.length →
          (res ++ ((fet.take i).map pages).flatten).length ≤ startAt + num) ∧
       (∀ i, i + 1 < fet.length → pages (fet.getD i 0) ≠ []) ∧
       (startAt + num < res'.length ∨ ∃ l, fet.getLast? = some l ∧ pages l = []))) ∧
    (fetchLoop scenarioPages 5 0 10 [] 1 = some ([0, 1, 2, 3, 4, 5, 6], 3, [1, 2]) ∧
     ([0, 1, 2, 3, 4, 5, 6] : List Nat).length = 7 ∧
     windowOf [0, 1, 2, 3, 4, 5, 6] 5 0 = [0, 1, 2, 3, 4]) := by
  refine ⟨?_, ?_, by decide⟩
  · intro α pages fuel pageno
    simp [fetchLoop]
  · intro α pages num startAt fuel res res' pg pg' fet hnum h
    obtain ⟨_, _, g3, g4, g5⟩ := fetchLoop_char pages num startAt fuel res pg res' pg' fet h
    refine ⟨g3, fun i hi => (g4 i hi).2, ?_⟩
    rcases g5 with g5 | ⟨l, hl1, hl2⟩
    · exact Or.inl g5
    · rcases hl2 with hl2 | hl2
      · omega
      · exact Or.inr ⟨l, hl1, hl2⟩

/-- Witness for `pagination_fetch_policy`: its general `num > 0` part applied
to the concrete scenario round. -/
theorem pagination_fetch_policy_witness :
    (([] : List Nat) ++ ((([1, 2].take 1).map scenarioPages).flatten)).length ≤ 0 + 5 ∧
    (0 + 5 < ([0, 1, 2, 3, 4, 5, 6] : List Nat).length ∨
      ∃ l, ([1, 2] : List Nat).getLast? = some l ∧ scenarioPages l = []) := by
  have h := pagination_fetch_policy.2.1 Nat scenarioPages 5 0 10 [] [0, 1, 2, 3, 4, 5, 6]
    1 3 [1, 2] (by decide) (by decide)
  exact ⟨h.1 1 (by decide), h.2.2⟩

/-- **C1** (code bug): in the scenario round the fetch loop exits with the
page counter already pointing one past the last fetched page (pages `[1, 2]`
fetched, counter at 3).  The `n` handler then increments the counter again
before breaking back into the fetch loop, so the next backend fetch requests
page 4 — not page 3, the page after the last page already fetched.  A full
backend page is silently skipped, contradicting the claim (and §4.3 of the
spec, which says `n` re-enters `FETCHING` with the existing page counter). -/
theorem next_command_page_skip :
    runRound scenarioPages 10 scenarioSession =
      some ({ scenarioSession with results := [0, 1, 2, 3, 4, 5, 6], pageno := 3 }, [1, 2]) ∧
    interpret { scenarioSession with results := [0, 1, 2, 3, 4, 5, 6], pageno := 3 } "n".data =
      ActResult.fetch
        { scenarioSession with results := [0, 1, 2, 3, 4, 5, 6], pageno := 4, startAt := 5 } ∧
    (runRound scenarioPages 10
        { scenarioSession with results := [0, 1, 2, 3, 4, 5, 6], pageno := 4, startAt := 5 }).map
        (fun x => x.2.head?) = some (some 4) ∧
    ([1, 2] : List Nat).getLast? = some 2 ∧ (4 : Nat) ≠ 2 + 1 := by
  decide

/-- **C3** (code bug): the source converts a float `length` with
`f"{int(length // 60):02}:{int(length % 6):02}"` — seconds modulo **6**, not
60.  At `length = 125.0` this coincidentally renders `02:05` exactly as the
claim's scenario expects (125 mod 6 = 125 mod 60 = 5), but the general
MM:SS decomposition claimed fails: at `length = 70.0` the code renders
`01:04` where the claim requires `01:10`. -/
theorem videos_length_mmss_bug :
    fmtLength 125 = "02:05" ∧ specMMSS 125 = "02:05" ∧
    videosTrailer { category := some "videos", length := some (.ofFloat 125) } =
      ["     [cyan dim]02:05[/cyan dim] "] ∧
    fmtLength 70 = "01:04" ∧ specMMSS 70 = "01:10" ∧
    videosTrailer { category := some "videos", length := some (.ofFloat 70) } =
      ["     [cyan dim]01:04[/cyan dim] "] ∧
    fmtLength 70 ≠ specMMSS 70 := by
  decide

/-- **C4** (counterexample): for the GET transport the serialized categories
value transmitted to the backend is the literal `social+media` — the `+` is
*not* translated to a space.  (The translation of lines 435-439 runs only in
the `http_method == "POST"` branch.) -/
theorem social_media_translation_get_counterexample :
    getSearchPath "cats" none ["social+media"] [] none 1 none none =
      "/search?q=cats&format=json&categories=social+media" ∧
    containsS (getSearchPath "cats" none ["social+media"] [] none 1 none none)
      "social media" = false ∧
    containsS (getSearchPath "cats" none ["social+media"] [] none 1 none none)
      "social+media" = true := by
  decide

/-- **C4** (amended): the `social+media` → `social media` translation is
applied only on the POST path — for every request whose category list
contains `social+media`, the POST form body's `categories` value contains
the literal `social media`; the GET query string serializes the category
list verbatim, `+` included. -/
theorem social_media_translation_post_only :
    (∀ (query : String) (site : Option String) (cats engines : List String)
        (language : Option String) (pageno : Nat) (ss tr : Option String),
      "social+media" ∈ cats →
      ∃ v, lookupKey (postSearchBody query site cats engines language pageno ss tr)
              "categories" = some v ∧
           containsS v "social media" = true) ∧
    getSearchPath "cats" none ["social+media"] [] none 1 none none =
      "/search?q=cats&format=json&categories=social+media" := by
  constructor
  · intro query site cats engines language pageno ss tr h
    have hne : cats ≠ [] := List.ne_nil_of_mem h
    refine ⟨joinComma (translateCategories cats), ?_, ?_⟩
    · unfold postSearchBody
      rw [if_pos hne]
      simp [lookupKey]
    · apply containsS_joinComma
      rw [translateCategories, if_pos h]
      have := List.mem_map_of_mem
        (fun c => if c = "social+media" then "social media" else c) h
      simpa using this
  · decide

/-- Witness for `social_media_translation_post_only`, at the concrete POST
request of the counterexample scenario. -/
theorem social_media_translation_post_only_witness :
    ∃ v, lookupKey (postSearchBody "cats" none ["social+media"] [] none 1 none none)
          "categories" = some v ∧ containsS v "social media" = true :=
  social_media_translation_post_only.1 "cats" none ["social+media"] [] none 1 none none
    (by decide)

/-- **C5** (counterexample): with 7 buffered results, the bare integer `99`
is *not* recovered locally — it falls through the whole `elif` chain (the
index branch requires `int(...) in range(1, len(results) + 1)`) and is
treated as a brand-new free-text query: the buffer is cleared, the window
offset and page counter are reset, and a new backend fetch round begins. -/
theorem out_of_range_index_counterexample :
    interpret sess7 "99".data =
      ActResult.fetch
        { sess7 with query := "99".data, startAt := 0, pageno := 1, results := [] } ∧
    sess7.results.length = 7 ∧ (7 : Nat) < 99 := by
  decide

/-- **C5** (amended): a bare-integer input outside the valid result-index
range (i.e. zero or larger than the number of buffered results) is treated
as a new free-text query: the session resets (window offset 0, page counter
1, buffer cleared, query replaced by the digits) and re-enters fetching.
Only the argument forms `c <index>`/`j <index>` recover invalid indices
locally. -/
theorem out_of_range_index_new_query :
    ∀ (α : Type) (s : Session α) (input : List Char),
      pyIsDigit (pyStrip input) = true →
      (pyToNat (pyStrip input) = 0 ∨ s.results.length < pyToNat (pyStrip input)) →
      interpret s input =
        ActResult.fetch
          { s with query := pyStrip input, startAt := 0, pageno := 1, results := [] } := by
  intro α s input h1 h2
  obtain ⟨c, cs, ht⟩ : ∃ c cs, pyStrip input = c :: cs := by
    cases he : pyStrip input with
    | nil => rw [he] at h1; simp [pyIsDigit] at h1
    | cons c cs => exact ⟨c, cs, rfl⟩
  rw [ht] at h1 h2
  have hdc : isDigitChar c = true := by
    simp only [pyIsDigit, List.all_cons, Bool.and_eq_true, List.isEmpty_cons] at h1
    exact h1.2.1
  obtain ⟨hlow, hq, he', hqm, hc, hn, hp, hf, ht', hs, hx, hd, hj⟩ := digit_facts hdc
  rw [interpret, commandOf, ht]
  rw [if_neg, if_neg, if_neg, if_neg, if_neg, if_neg, if_neg, if_neg, if_neg, if_neg,
    if_neg, if_neg, if_neg, if_pos]
  · rfl
  · simp
  · simp [startsWithL, hj]
  · simp [hd]
  · simp [hs]
  · simp [hx]
  · simp [startsWithL, hs]
  · simp [startsWithL, ht']
  · simp [hf]
  · simp [hp]
  · simp [hn]
  · simp [startsWithL, hc]
  · rcases h2 with h2 | h2
    · simp [h2]
    · intro hcond
      exact absurd hcond.2.2 (by omega)
  · simp [hqm]
  · simp [pyLower, hlow, hq, he']

/-- Witness for `out_of_range_index_new_query`: the out-of-range bare
integer `" 42 "` entered against a 7-result buffer. -/
theorem out_of_range_index_new_query_witness :
    interpret sess7 " 42 ".data =
      ActResult.fetch
        { sess7 with query := "42".data, startAt := 0, pageno := 1, results := [] } := by
  have h := out_of_range_index_new_query Nat sess7 " 42 ".data (by decide) (by decide)
  have hps : pyStrip " 42 ".data = "42".data := by decide
  rw [hps] at h
  exact h

/-- The commands the claim describes as "query, site filter, or time range
changes": a valid `t <range>`, a `site:<value>`, or a fresh free-text
query. -/
def isResetCmd : Cmd → Bool
  | .timeCmd arg => decide (arg ∈ TIME_RANGE_OPTIONS ∨ arg ∈ TIME_RANGE_SHORT_OPTIONS)
  | .siteCmd _ => true
  | .newQuery _ => true
  | _ => false

/-- **C9**: whenever the interactive input is a query / site-filter /
time-range change, the handler resets the page counter to 1, the window
offset to 0 and clears the buffer, and breaks into a fresh fetch round
(`ActResult.fetch` — the reset state is what the fetch loop then runs on,
so the reset happens before any new fetch); for every other input the
buffer is left exactly as it was, so no other command ever performs this
reset. -/
theorem filter_change_reset_policy :
    ∀ (α : Type) (s : Session α) (input : List Char),
      (isResetCmd (commandOf s.results.length input) = true →
        ∃ s' : Session α, interpret s input = ActResult.fetch s' ∧
          s'.pageno = 1 ∧ s'.startAt = 0 ∧ s'.results = [] ∧
          s'.num = s.num ∧ s'.expand = s.expand) ∧
      (isResetCmd (commandOf s.results.length input) = false →
        (∀ s' shown, interpret s input = ActResult.cont s' shown → s'.results = s.results) ∧
        (∀ s', interpret s input = ActResult.fetch s' → s'.results = s.results)) := by
  intro α s input
  rw [interpret]
  cases hcmd : commandOf s.results.length input with
  | timeCmd arg =>
    constructor
    · intro hr
      simp only [isResetCmd, decide_eq_true_eq] at hr
      rw [act, if_pos hr]
      exact ⟨_, rfl, rfl, rfl, rfl, rfl, rfl⟩
    · intro hr
      simp only [isResetCmd, decide_eq_false_iff_not] at hr
      rw [act, if_neg hr]
      exact ⟨fun s' shown h => by cases h; rfl, fun s' h => by cases h⟩
  | siteCmd v =>
    refine ⟨fun _ => ⟨_, rfl, rfl, rfl, rfl, rfl, rfl⟩,
      fun hr => by simp [isResetCmd] at hr⟩
  | newQuery q =>
    refine ⟨fun _ => ⟨_, rfl, rfl, rfl, rfl, rfl, rfl⟩,
      fun hr => by simp [isResetCmd] at hr⟩
  | quit =>
    refine ⟨fun hr => by simp [isResetCmd] at hr, fun _ => ⟨?_, ?_⟩⟩
    · intro s' shown h; cases h
    · intro s' h; cases h
  | help =>
    refine ⟨fun hr => by simp [isResetCmd] at hr, fun _ => ⟨?_, ?_⟩⟩
    · intro s' shown h; cases h; rfl
    · intro s' h; cases h
  | openIndex n =>
    refine ⟨fun hr => by simp [isResetCmd] at hr, fun _ => ⟨?_, ?_⟩⟩
    · intro s' shown h; cases h; rfl
    · intro s' h; cases h
  | copy arg =>
    refine ⟨fun hr => by simp [isResetCmd] at hr, fun _ => ⟨?_, ?_⟩⟩
    · intro s' shown h; cases h; rfl
    · intro s' h; cases h
  | next =>
    refine ⟨fun hr => by simp [isResetCmd] at hr, fun _ => ⟨?_, ?_⟩⟩
    · intro s' shown h
      rw [act] at h
      split at h
      · cases h; rfl
      · cases h
    · intro s' h
      rw [act] at h
      split at h
      · cases h
      · cases h; rfl
  | prev =>
    refine ⟨fun hr => by simp [isResetCmd] at hr, fun _ => ⟨?_, ?_⟩⟩
    · intro s' shown h; cases h; rfl
    · intro s' h; cases h
  | first =>
    refine ⟨fun hr => by simp [isResetCmd] at hr, fun _ => ⟨?_, ?_⟩⟩
    · intro s' shown h; cases h; rfl
    · intro s' h; cases h
  | toggleExpand =>
    refine ⟨fun hr => by simp [isResetCmd] at hr, fun _ => ⟨?_, ?_⟩⟩
    · intro s' shown h; cases h; rfl
    · intro s' h; cases h
  | settings =>
    refine ⟨fun hr => by simp [isResetCmd] at hr, fun _ => ⟨?_, ?_⟩⟩
    · intro s' shown h; cases h; rfl
    · intro s' h; cases h
  | toggleDebug =>
    refine ⟨fun hr => by simp [isResetCmd] at hr, fun _ => ⟨?_, ?_⟩⟩
    · intro s' shown h; cases h; rfl
    · intro s' h; cases h
  | jsonDump arg =>
    refine ⟨fun hr => by simp [isResetCmd] at hr, fun _ => ⟨?_, ?_⟩⟩
    · intro s' shown h; cases h; rfl
    · intro s' h; cases h
  | empty =>
    refine ⟨fun hr => by simp [isResetCmd] at hr, fun _ => ⟨?_, ?_⟩⟩
    · intro s' shown h; cases h; rfl
    · intro s' h; cases h

/-- Witness for `filter_change_reset_policy`: the time-range change `t day`
against a 7-result session. -/
theorem filter_change_reset_policy_witness :
    ∃ s' : Session Nat, interpret sess7 "t day".data = ActResult.fetch s' ∧
      s'.pageno = 1 ∧ s'.startAt = 0 ∧ s'.results = [] ∧
      s'.num = sess7.num ∧ s'.expand = sess7.expand :=
  (filter_change_reset_policy Nat sess7 "t day".data).1 (by decide)

/-- **C10**: in every reachable session state (the window offset is always a
multiple of `num`), `p` retreats the window offset by `num` clamped at 0 and
`f` sets it to 0; both produce an `ActResult.cont` whose shown window is a
slice of the existing buffer — no `ActResult.fetch`, hence no network call —
and leave the buffer and page counter untouched. -/
theorem backward_navigation_no_fetch :
    ∀ (α : Type) (s : Session α) (k : Nat), s.startAt = k * s.num →
      interpret s "p".data =
        ActResult.cont { s with startAt := s.startAt - s.num }
          (some (windowOf s.results s.num (s.startAt - s.num))) ∧
      interpret s "f".data =
        ActResult.cont { s with startAt := 0 } (some (windowOf s.results s.num 0)) := by
  intro α s k hk
  constructor
  · have hcmd : commandOf s.results.length "p".data = Cmd.prev := by rfl
    rw [interpret, hcmd, act]
    have harg : (if s.startAt ≥ s.num then s.startAt - s.num else s.startAt) =
        s.startAt - s.num := by
      split
      · rfl
      · rename_i hlt
        cases k with
        | zero => simp at hk; omega
        | succ k' => rw [hk, Nat.succ_mul] at hlt; omega
    rw [harg]
  · have hcmd : commandOf s.results.length "f".data = Cmd.first := by rfl
    rw [interpret, hcmd, act]

/-- Witness for `backward_navigation_no_fetch`, at the 7-result session
(window offset 0 = 0 · num). -/
theorem backward_navigation_no_fetch_witness :
    interpret sess7 "p".data =
      ActResult.cont { sess7 with startAt := sess7.startAt - sess7.num }
        (some (windowOf sess7.results sess7.num (sess7.startAt - sess7.num))) ∧
    interpret sess7 "f".data =
      ActResult.cont { sess7 with startAt := 0 }
        (some (windowOf sess7.results sess7.num 0)) :=
  backward_navigation_no_fetch Nat sess7 0 (by decide)

/-- **C6** (counterexample): `print_results` is not idempotent on every
input.  For a record whose `engines` list contains its primary engine name
twice, the first call's `engines.remove(engine)` leaves one duplicate (which
is printed), and the second call removes that one too — the two calls print
different source-engines lines. -/
theorem render_idempotence_counterexample :
    (printResults env0 [rDup] 1 0 false).1 ≠
      (printResults env0 (printResults env0 [rDup] 1 0 false).2 1 0 false).1 := by
  decide

/-- **C6** (amended): calling `print_results` twice in succession (the second
call seeing the record mutations made by the first, as the Python caller's
list does) produces identical output whenever no rendered record's `engines`
list contains its primary engine name more than once — in particular for the
usual case of duplicate-free engine lists.  In general the first call's
in-place `engines.remove(engine)` can change what the second call prints. -/
theorem render_idempotent_without_duplicate_engines :
    ∀ (env : RenderEnv) (results : List ResultRecord) (count startAt : Nat) (expand : Bool),
      (∀ r ∈ windowOf results count startAt, ∀ e, r.engine = some e →
        r.engines.count e ≤ 1) →
      (printResults env (printResults env results count startAt expand).2
          count startAt expand).1 =
        (printResults env results count startAt expand).1 := by
  intro env results count startAt expand h
  have hwin : windowOf (printResults env results count startAt expand).2 count startAt =
      (windowOf results count startAt).map mutateRecord := by
    rw [printResults_snd, window_of_decomp]
  show ("" :: (renderWindow env expand (startAt + 1)
      (windowOf (printResults env results count startAt expand).2 count startAt)).1) = _
  rw [hwin, renderWindow_fst_mutate env expand (startAt + 1) (windowOf results count startAt) h]
  rfl

/-- Witness for `render_idempotent_without_duplicate_engines`: a record
listing its primary engine once. -/
theorem render_idempotent_without_duplicate_engines_witness :
    (printResults env0 (printResults env0 [rOk] 1 0 false).2 1 0 false).1 =
      (printResults env0 [rOk] 1 0 false).1 :=
  render_idempotent_without_duplicate_engines env0 [rOk] 1 0 false (by decide)

/-- **C7**: `print_results` mutates its input list in place: the records of
the rendered window come back with the first occurrence of their primary
engine name erased from `engines` (a record that listed it therefore differs
afterwards), every other field and every record outside the window are
untouched, and the list length is preserved. -/
theorem print_results_mutates_engines :
    ∀ (env : RenderEnv) (results : List ResultRecord) (count startAt : Nat) (expand : Bool),
      ((printResults env results count startAt expand).2.length = results.length) ∧
      (∀ i : Nat, (printResults env results count startAt expand).2[i]? =
        if startAt ≤ i ∧ i < startAt + count then (results[i]?).map mutateRecord
        else results[i]?) ∧
      (∀ (r : ResultRecord) (e : String), r.engine = some e → e ∈ r.engines →
        mutateRecord r = { r with engines := r.engines.erase e } ∧ mutateRecord r ≠ r) := by
  intro env results count startAt expand
  refine ⟨?_, ?_, fun r e h1 h2 => mutateRecord_spec r e h1 h2⟩
  · rw [printResults_snd]
    simp [windowOf, List.length_take, List.length_drop]
    omega
  · intro i
    rw [printResults_snd, windowOf]
    exact decomp_getElem results startAt count mutateRecord i

/-- Witness for `print_results_mutates_engines`: the duplicate-engines
record. -/
theorem print_results_mutates_engines_witness :
    mutateRecord rDup = { rDup with engines := rDup.engines.erase "e1" } ∧
    mutateRecord rDup ≠ rDup :=
  (print_results_mutates_engines env0 [rDup] 1 0 false).2.2 rDup "e1" rfl (by decide)

/-- **C8** (counterexample): a music record with an author but no
`publishedDate` renders *no* length/author trailer, although the same record
under the videos category does — the music branch is guarded by
`category == "music" and result.get("publishedDate")` (searxngr.py line
174), a condition the videos branch does not impose. -/
theorem music_trailer_counterexample :
    truthyS ({ category := some "music", author := some "Artist" } : ResultRecord).author
      = true ∧
    musicTrailer { category := some "music", author := some "Artist" } = [] ∧
    videosTrailer { category := some "videos", author := some "Artist" } =
      ["     [cyan dim][/cyan dim] Artist"] := by
  decide

/-- **C8** (amended): a music record renders the length/author trailer with
exactly the formatting a videos record would use (the shared
`lengthAuthorLines`, seconds-modulo-6 conversion included), but only under
the additional condition
that the record's raw `publishedDate` field is truthy. -/
theorem music_trailer_requires_published_date :
    ∀ r : ResultRecord, r.category = some "music" →
      musicTrailer r =
        (if truthyS r.publishedDate then
          videosTrailer { r with category := some "videos" }
        else []) := by
  intro r h
  rw [musicTrailer, videosTrailer]
  by_cases hp : truthyS r.publishedDate
  · rw [if_pos ⟨h, hp⟩, if_pos hp, if_pos rfl]
  · rw [if_neg (fun hc => hp hc.2), if_neg hp]

/-- Witness for `music_trailer_requires_published_date`: the dated music
record `rMusic`. -/
theorem music_trailer_requires_published_date_witness :
    musicTrailer rMusic =
      (if truthyS rMusic.publishedDate then
        videosTrailer { rMusic with category := some "videos" }
      else []) :=
  music_trailer_requires_published_date rMusic rfl

end Searxngr
